import Mathlib

/-!
Verification development for the gongflow chunked-upload package
(server support for ng-flow resumable uploads).

The Go source (gongflow.go) is shallowly embedded below.  Filesystem
state is made explicit: a per-upload directory is a list of named
entries in directory-listing order, operations that can fail according
to the source are modelled with `Option`, and the filesystem operations
a routine performs are recorded as an explicit trace where a claim is
about effects.  Go `int`/`int64` values are modelled as `Int` (no
overflow is relevant to any property below), byte strings as `List Nat`.

`path.Join` is modelled for the clean, slash-free components that occur
in the package (a root directory, an upload identifier, a decimal chunk
index, a file name): joining is appending a slash and the component.
-/

set_option autoImplicit false

namespace Gongflow

/-- Model of Go `path.Join` for a directory and one further component. -/
def pathJoin (dir comp : String) : String :=
  dir ++ "/" ++ comp

/-- Model of Go `path.IsAbs`: a path is absolute iff it is nonempty and
starts with a slash. -/
def isAbs (s : String) : Bool :=
  s.data.head? == some '/'

/-- The upload metadata decoded from an ng-flow request (struct `NgFlowData`).
Numeric fields are Go `int`, modelled as `Int`. -/
structure NgFlowData where
  ChunkNumber : Int
  TotalChunks : Int
  ChunkSize : Int
  TotalSize : Int
  Identifier : String
  Filename : String
  RelativePath : String
deriving DecidableEq

/-- The stat view of one directory entry as seen by `allChunksUploaded`:
the entry name from `ioutil.ReadDir` paired with the result of the
subsequent `os.Stat` (`some size`, or `none` when the stat fails and Go
returns a nil `FileInfo`). -/
abbrev StatEntry := String × Option Int

/-- The summation loop of `allChunksUploaded`: `totalSize += fi.Size()`
over the listed entries.  When a stat failed, the Go code logs the error
but then still calls `fi.Size()` on the nil `FileInfo`, which panics;
that aborted execution is `none`. -/
def sizeLoop : List StatEntry → Int → Option Int
  | [], acc => some acc
  | (_, some sz) :: rest, acc => sizeLoop rest (acc + sz)
  | (_, none) :: _, _ => none

/-- Embedding of `allChunksUploaded`: `listing` is the result of
`ioutil.ReadDir` on the upload subdirectory (`none` when the listing
fails, in which case the ranged-over slice is nil and the loop body
never runs), `totalSize` is `int64(ngfd.TotalSize)`.  The result is
`none` exactly when the Go code panics (nil `FileInfo` dereference
after a failed per-entry `os.Stat`). -/
def allChunksUploaded (listing : Option (List StatEntry)) (totalSize : Int) : Option Bool :=
  let files := listing.getD []
  match sizeLoop files 0 with
  | none => none
  | some s => some (if s = totalSize then true else false)

/-- Sum of the stat sizes of a listing, counting a failed stat as zero. -/
def viewSum (l : List StatEntry) : Int :=
  (l.map (fun e => e.2.getD 0)).sum

/-- One file in an upload subdirectory: its name and its byte content.
A directory is a `List FileEntry` in directory-listing order, with
pairwise distinct names (stated as a hypothesis where a proof needs it). -/
structure FileEntry where
  name : String
  content : List Nat
deriving DecidableEq

/-- Stat view of a stable directory: every listed entry stats
successfully with its byte length as size. -/
def statView (dir : List FileEntry) : List StatEntry :=
  dir.map (fun e => (e.name, some (e.content.length : Int)))

/-- Model of `ioutil.ReadFile` on one directory: the content of the
entry with the given name, or `none` when no such file exists. -/
def readFileD (dir : List FileEntry) (n : String) : Option (List Nat) :=
  (dir.find? (fun e => e.name == n)).map (·.content)

/-- Whether the directory has an entry with the given name. -/
def hasEntry (dir : List FileEntry) (n : String) : Bool :=
  dir.any (fun e => e.name == n)

/-- Model of `os.Create` / `ioutil.WriteFile` at directory level:
truncate-or-replace an existing entry, otherwise add a new entry (the
position of a newly created entry within the listing order is not
observed by any property below). -/
def writeEntry (dir : List FileEntry) (n : String) (c : List Nat) : List FileEntry :=
  if hasEntry dir n then
    dir.map (fun e => if e.name == n then ⟨n, c⟩ else e)
  else
    dir ++ [⟨n, c⟩]

/-- Model of a `Write` on the open destination handle: append bytes to
the entry with the given name. -/
def appendEntry (dir : List FileEntry) (n : String) (dat : List Nat) : List FileEntry :=
  dir.map (fun e => if e.name == n then ⟨e.name, e.content ++ dat⟩ else e)

/-- Model of `os.Remove`: drop the entry with the given name. -/
def removeEntry (dir : List FileEntry) (n : String) : List FileEntry :=
  dir.filter (fun e => !(e.name == n))

/-- The per-entry loop of `combineChunks` over the snapshot of names
returned by `ioutil.ReadDir`: for each listed name whose joined path is
not the destination path, read its full content (`none` result when the
read fails, which makes the whole combine return an error), append it to
the destination file and delete it. -/
def combineLoop (fileDir fname : String) : List String → List FileEntry → Option (List FileEntry)
  | [], dir => some dir
  | n :: rest, dir =>
    if pathJoin fileDir n == pathJoin fileDir fname then
      combineLoop fileDir fname rest dir
    else
      match readFileD dir n with
      | none => none
      | some dat => combineLoop fileDir fname rest (removeEntry (appendEntry dir fname dat) n)

/-- Embedding of `combineChunks`: create (or truncate) the destination
file named `ngfd.Filename` in `fileDir`, snapshot the directory listing,
run the combining loop, and on success return the destination path
together with the resulting directory state. -/
def combineChunks (fileDir : String) (ngfd : NgFlowData) (dir : List FileEntry) :
    Option (String × List FileEntry) :=
  let combinedName := pathJoin fileDir ngfd.Filename
  let dir1 := writeEntry dir ngfd.Filename []
  match combineLoop fileDir ngfd.Filename (dir1.map FileEntry.name) dir1 with
  | none => none
  | some dir2 => some (combinedName, dir2)

/-- Embedding of `buildPathChunks`: the upload subdirectory path and the
chunk file path for the descriptor. -/
def buildPathChunks (tempDir : String) (ngfd : NgFlowData) : String × String :=
  let filePath := pathJoin tempDir ngfd.Identifier
  let chunkFile := pathJoin filePath (toString ngfd.ChunkNumber)
  (filePath, chunkFile)

/-- `DefaultDirPermissions`: mode 0777, the package-level setting for
directories created by gongflow. -/
def DefaultDirPermissions : Nat := 0o777

/-- `DefaultFilePermissions`: mode 0600, the package-level setting for
files created by gongflow. -/
def DefaultFilePermissions : Nat := 0o600

/-- One filesystem operation, as recorded in an effect trace.  Creation
operations carry the permission mode they pass to the OS. -/
inductive FsOp where
  | statOp (p : String)
  | mkdirAllOp (p : String) (mode : Nat)
  | writeFileOp (p : String) (mode : Nat)
  | readFileOp (p : String)
  | removeOp (p : String)
  | removeAllOp (p : String)
deriving DecidableEq

/-- Whether an operation mutates the filesystem. -/
def FsOp.isWrite : FsOp → Bool
  | statOp _ => false
  | readFileOp _ => false
  | mkdirAllOp _ _ => true
  | writeFileOp _ _ => true
  | removeOp _ => true
  | removeAllOp _ => true

/-- Filesystem operations performed by a successful `storeChunk`: it
runs `os.MkdirAll(tempDir, DefaultDirPermissions)`, reads the request's
`file` form field into memory (no filesystem access), and then writes
the chunk with `ioutil.WriteFile(tempFile, data, DefaultDirPermissions)`
— the source passes the directory-permission setting, not
`DefaultFilePermissions`, as the chunk file's mode. -/
def storeChunkOps (tempDir tempFile : String) : List FsOp :=
  [FsOp.mkdirAllOp tempDir DefaultDirPermissions,
   FsOp.writeFileOp tempFile DefaultDirPermissions]

/-- The package's error values for root validation. -/
inductive GErr where
  | noTempDir
  | cantCreateDir
  | cantWriteFile
  | cantReadFile
  | cantDelete
deriving DecidableEq

/-- The message carried by each error value. -/
def errText : GErr → String
  | .noTempDir => "gongflow: the temporary directory doesn\x27t exist"
  | .cantCreateDir => "gongflow: can\x27t create a directory under the temp directory"
  | .cantWriteFile => "gongflow: can\x27t write to a file under the temp directory"
  | .cantReadFile => "gongflow: can\x27t read a file under the temp directory (or got back bad data)"
  | .cantDelete => "gongflow: can\x27t delete a file/directory under the temp directory"

/-- Probe subdirectory name used by `checkDirectory`. -/
def testName : String := "5d58061677944334bb616ba19cec5cc4"

/-- Probe chunk-index-like path segment used by `checkDirectory`. -/
def testChunk : String := "42"

/-- Probe file name used by `checkDirectory`. -/
def contentName : String := "foobie"

/-- Probe payload written and read back by `checkDirectory`. -/
def testContent : String :=
  "For instance, on the planet Earth, man had always assumed that he was more intelligent than \n\tdolphins because he had achieved so much—the wheel, New York, wars and so on—whilst all the dolphins had \n\tever done was muck about in the water having a good time. But conversely, the dolphins had always believed \n\tthat they were far more intelligent than man—for precisely the same reasons."

/-- Outcome of each filesystem step of the one-time probe, abstracting
the state of the machine the probe runs against: whether the root
exists and is a directory, whether the probe mkdir/write/delete succeed,
and what a read of the probe file gives back (`none` for a failed read). -/
structure ProbeEnv where
  rootExists : Bool
  mkdirOk : Bool
  writeOk : Bool
  readBack : Option String
  removeOk : Bool
deriving DecidableEq

/-- The body of `checkDirectory` past the cache test: the one-time probe
of root `d`.  Returns the validation outcome and the trace of filesystem
operations performed, short-circuiting at the first failing step exactly
as the source does. -/
def checkDirectoryProbe (d : String) (env : ProbeEnv) : Option GErr × List FsOp :=
  let t0 := [FsOp.statOp d]
  if !env.rootExists then (some GErr.noTempDir, t0) else
  let p := pathJoin (pathJoin d testName) testChunk
  let t1 := t0 ++ [FsOp.mkdirAllOp p DefaultDirPermissions]
  if !env.mkdirOk then (some GErr.cantCreateDir, t1) else
  let f := pathJoin p contentName
  let t2 := t1 ++ [FsOp.writeFileOp f DefaultFilePermissions]
  if !env.writeOk then (some GErr.cantWriteFile, t2) else
  let t3 := t2 ++ [FsOp.readFileOp f]
  match env.readBack with
  | none => (some GErr.cantReadFile, t3)
  | some b =>
    if b ≠ testContent then (some GErr.cantReadFile, t3) else
    let t4 := t3 ++ [FsOp.removeAllOp (pathJoin d testName)]
    if !env.removeOk then (some GErr.cantDelete, t4) else
    (none, t4)

/-- The package-level validation cache: `alreadyCheckedDirectory` and
`lastCheckedDirectoryError` (`none` models the nil error). -/
structure CheckState where
  alreadyCheckedDirectory : Bool
  lastCheckedDirectoryError : Option GErr
deriving DecidableEq

/-- The cache state at process start. -/
def initCheckState : CheckState := ⟨false, none⟩

/-- Embedding of `checkDirectory`: on a cache hit return the cached
error without touching the filesystem; otherwise set the flag, run the
probe, cache its outcome and return it, together with the probe's
operation trace. -/
def checkDirectory (d : String) (env : ProbeEnv) (st : CheckState) :
    Option GErr × CheckState × List FsOp :=
  if st.alreadyCheckedDirectory then
    (st.lastCheckedDirectoryError, st, [])
  else
    let r := checkDirectoryProbe d env
    (r.1, ⟨true, r.1⟩, r.2)

/-- `n` successive `checkDirectory` calls from cache state `st`: the
list of per-call results, the final cache state, and the concatenation
of all filesystem operations performed by the calls. -/
def checkDirectoryN (d : String) (env : ProbeEnv) : Nat → CheckState →
    List (Option GErr) × CheckState × List FsOp
  | 0, st => ([], st, [])
  | n + 1, st =>
    let r := checkDirectory d env st
    let rest := checkDirectoryN d env n r.2.1
    (r.1 :: rest.1, rest.2.1, r.2.2 ++ rest.2.2)

/-- Embedding of `ChunkStatus` given the validator outcome and the
result of reading the chunk file (`none` when the file is absent and the
read fails).  Returns the message and the numeric status code. -/
def ChunkStatus (rootErr : Option GErr) (ngfd : NgFlowData) (chunkData : Option (List Nat)) :
    String × Int :=
  match rootErr with
  | some e => ("Directory is broken: " ++ errText e, 500)
  | none =>
    let cns := toString ngfd.ChunkNumber
    match chunkData with
    | none =>
      ("The chunk " ++ ngfd.Identifier ++ ":" ++ cns ++ " isn\x27t started yet!", 406)
    | some dat =>
      if ngfd.ChunkNumber ≠ ngfd.TotalChunks ∧ ngfd.ChunkSize ≠ (dat.length : Int) then
        ("The chunk " ++ ngfd.Identifier ++ ":" ++ cns ++ " is the wrong size!", 500)
      else
        ("The chunk " ++ ngfd.Identifier ++ ":" ++ cns ++ " looks great!", 200)

/-- `ChunkStatus` with its effects: it first runs `checkDirectory`
(against probe environment `env` and cache state `st`), then, when the
root check passed, reads the chunk file.  Returns the status result, the
new cache state, and the trace of filesystem operations performed. -/
def ChunkStatusT (tempDir : String) (ngfd : NgFlowData) (env : ProbeEnv) (st : CheckState)
    (chunkData : Option (List Nat)) : (String × Int) × CheckState × List FsOp :=
  let r := checkDirectory tempDir env st
  let readOps : List FsOp :=
    match r.1 with
    | some _ => []
    | none => [FsOp.readFileOp (buildPathChunks tempDir ngfd).2]
  (ChunkStatus r.1 ngfd chunkData, r.2.1, r.2.2 ++ readOps)

/-- One immediate child of the storage root as seen by `ChunksCleanup`:
its name, the result of `os.Stat` on it (`some` modification time, or
`none` for a stat failure), and whether `os.RemoveAll` on it would fail. -/
structure SweepEntry where
  name : String
  modTime : Option Int
  removeFails : Bool
deriving DecidableEq

/-- The errors `ChunksCleanup` can surface. -/
inductive SweepErr where
  | listErr
  | statErr
  | removeErr
deriving DecidableEq

/-- Whether an entry is older than the retention window: the source's
`time.Now().Sub(finfo.ModTime()) > timeoutDur` test (false when the stat
failed, in which case the loop aborts before testing). -/
def expiredE (now dur : Int) (e : SweepEntry) : Bool :=
  match e.modTime with
  | some mt => decide (now - mt > dur)
  | none => false

/-- The per-entry loop of `ChunksCleanup`: stat each entry (aborting on
a stat error), delete it when it is older than the retention window
(aborting on a delete error), keep it otherwise.  Returns the first
error, if any, and the resulting root directory contents. -/
def sweepLoop (now dur : Int) : List SweepEntry → Option SweepErr × List SweepEntry
  | [] => (none, [])
  | e :: rest =>
    match e.modTime with
    | none => (some SweepErr.statErr, e :: rest)
    | some mt =>
      if now - mt > dur then
        if e.removeFails then (some SweepErr.removeErr, e :: rest)
        else sweepLoop now dur rest
      else
        let r := sweepLoop now dur rest
        (r.1, e :: r.2)

/-- Embedding of `ChunksCleanup`: when the root listing fails, return
that error with the root untouched; otherwise run the sweep loop over
the listed children. -/
def ChunksCleanup (listingFails : Bool) (dir : List SweepEntry) (now dur : Int) :
    Option SweepErr × List SweepEntry :=
  if listingFails then (some SweepErr.listErr, dir) else sweepLoop now dur dir

/-- An entry the sweep can process without an error: its stat succeeds,
and deleting it succeeds if it is due for deletion. -/
def entryOk (now dur : Int) (e : SweepEntry) : Prop :=
  e.modTime.isSome ∧ (expiredE now dur e = true → e.removeFails = false)

instance (now dur : Int) (e : SweepEntry) : Decidable (entryOk now dur e) :=
  inferInstanceAs (Decidable (_ ∧ _))

/-- A probe environment in which every step of the root validation
succeeds and the probe file reads back intact. -/
def envIdeal : ProbeEnv := ⟨true, true, true, some testContent, true⟩

/-- A concrete descriptor for a zero-byte upload. -/
def descC10 : NgFlowData := ⟨1, 1, 1, 0, "abc123", "f.bin", "f.bin"⟩

/-- A concrete two-chunk descriptor whose filename collides with the
name of chunk file `1`. -/
def descC2x : NgFlowData := ⟨1, 2, 1, 2, "abc123", "1", "1"⟩

/-- A concrete two-chunk descriptor with a collision-free filename. -/
def descC2w : NgFlowData := ⟨1, 2, 1, 2, "abc123", "f.bin", "f.bin"⟩

/-- A concrete descriptor for the status query. -/
def descC5 : NgFlowData := ⟨1, 3, 2, 7, "abc123", "f.bin", "f.bin"⟩

/-- A concrete descriptor for the status query effect trace. -/
def descC6 : NgFlowData := ⟨1, 1, 1, 1, "abc", "f", "f"⟩

/-- A concrete single-chunk descriptor. -/
def descC8 : NgFlowData := ⟨1, 1, 1, 1, "abc", "f", "f"⟩

/-- A root child last modified at time 0, deletable. -/
def sweepOld : SweepEntry := ⟨"old", some 0, false⟩

/-- A root child last modified at time 100, deletable. -/
def sweepNew : SweepEntry := ⟨"new", some 100, false⟩

/-- A root child whose stat fails. -/
def sweepBad : SweepEntry := ⟨"bad", none, false⟩

/-- An expired root child whose deletion fails. -/
def sweepBad2 : SweepEntry := ⟨"bad2", some 0, true⟩

end Gongflow

namespace Gongflow

/-! ### Helper lemmas -/

theorem data_pathJoin (t x : String) : (pathJoin t x).data = t.data ++ ('/' :: x.data) := by
  show (t ++ "/" ++ x).data = _
  have h1 : (t ++ "/" ++ x).data = (t ++ "/").data ++ x.data := rfl
  have h2 : (t ++ "/").data = t.data ++ ['/'] := rfl
  rw [h1, h2, List.append_assoc]
  rfl

theorem pathJoin_inj (d a b : String) : pathJoin d a = pathJoin d b ↔ a = b := by
  constructor
  · intro h
    have h2 : d.data ++ ('/' :: a.data) = d.data ++ ('/' :: b.data) := by
      rw [← data_pathJoin, ← data_pathJoin, h]
    have h3 : a.data = b.data := by
      have := List.append_cancel_left h2
      exact List.tail_eq_of_cons_eq this
    cases a; cases b; exact congrArg String.mk h3
  · intro h; rw [h]

theorem sizeLoop_allSome (view : List StatEntry) (h : ∀ e ∈ view, (e.2).isSome) (acc : Int) :
    sizeLoop view acc = some (acc + viewSum view) := by
  induction view generalizing acc with
  | nil => simp [sizeLoop, viewSum]
  | cons e rest ih =>
    obtain ⟨n, v⟩ := e
    match v with
    | some sz =>
      have hrest : ∀ x ∈ rest, (x.2).isSome := fun x hx => h x (List.mem_cons_of_mem _ hx)
      rw [sizeLoop, ih hrest (acc + sz)]
      simp [viewSum]
      ring
    | none =>
      exact absurd (h (n, none) (List.mem_cons_self _ _)) (by simp)

/-! ### Claims about the completion check -/

/-- Claim C1 (confirmed): for every stat view of the upload
subdirectory in which every listed entry stats successfully, the
completion check returns `true` exactly when the byte-size sum of the
directory's entries equals the declared total size, and `false` for any
other declared total. -/
theorem allChunksUploaded_iff_sum_eq (view : List StatEntry) (total : Int)
    (h : ∀ e ∈ view, (e.2).isSome) :
    (allChunksUploaded (some view) total = some true ↔ viewSum view = total) ∧
    (allChunksUploaded (some view) total = some false ↔ viewSum view ≠ total) := by
  have hs := sizeLoop_allSome view h 0
  rw [zero_add] at hs
  constructor
  · rw [allChunksUploaded]
    simp only [Option.getD_some, hs]
    by_cases hc : viewSum view = total <;> simp [hc]
  · rw [allChunksUploaded]
    simp only [Option.getD_some, hs]
    by_cases hc : viewSum view = total <;> simp [hc]

theorem allChunksUploaded_iff_sum_eq_w :
    (∀ e ∈ ([("1", some 3), ("2", some 4)] : List StatEntry), (e.2).isSome) ∧
    allChunksUploaded (some [("1", some 3), ("2", some 4)]) 7 = some true ∧
    allChunksUploaded (some [("1", some 3), ("2", some 4)]) 9 = some false :=
  ⟨by decide,
   (allChunksUploaded_iff_sum_eq [("1", some 3), ("2", some 4)] 7 (by decide)).1.mpr (by decide),
   (allChunksUploaded_iff_sum_eq [("1", some 3), ("2", some 4)] 9 (by decide)).2.mpr (by decide)⟩

/-- Claim C3 (code bug): a failed directory listing is indeed tolerated
(nil slice, zero sum, a boolean is returned), but when the listing
succeeds and the `os.Stat` of some listed entry fails, the source logs
the error and then calls `fi.Size()` on the nil `FileInfo`, a panic —
modelled as the `none` outcome — so the check does not return a boolean
there, contradicting the claim. -/
theorem allChunksUploaded_statFailure_panics :
    allChunksUploaded none 5 = some false ∧
    allChunksUploaded (some [("3", none)]) 5 = none :=
  ⟨rfl, rfl⟩

/-- Claim C10 (confirmed): with a declared total size of 0 the
completion check returns `true` on a missing subdirectory (failed
listing), on an empty subdirectory, and on the subdirectory as it looks
right after the first (empty) chunk of a zero-byte upload is stored —
so `ChunkUpload` proceeds straight to combining. -/
theorem zeroTotal_complete (ngfd : NgFlowData) (h : ngfd.TotalSize = 0) :
    allChunksUploaded none ngfd.TotalSize = some true ∧
    allChunksUploaded (some []) ngfd.TotalSize = some true ∧
    ∀ chunkName : String,
      allChunksUploaded (some (statView (writeEntry [] chunkName []))) ngfd.TotalSize
        = some true := by
  rw [h]
  refine ⟨rfl, rfl, fun n => ?_⟩
  simp [writeEntry, hasEntry, statView, allChunksUploaded, sizeLoop]

theorem zeroTotal_complete_w :
    descC10.TotalSize = 0 ∧
    allChunksUploaded none descC10.TotalSize = some true ∧
    allChunksUploaded (some (statView (writeEntry [] "1" []))) descC10.TotalSize = some true :=
  ⟨rfl, (zeroTotal_complete descC10 rfl).1, (zeroTotal_complete descC10 rfl).2.2 "1"⟩

/-! ### Claims about the reassembly -/

theorem hasEntry_eq_false (dir : List FileEntry) (n : String)
    (h : n ∉ dir.map FileEntry.name) : hasEntry dir n = false := by
  simp only [hasEntry, List.any_eq_false]
  intro e he heq
  exact h (beq_iff_eq.mp heq ▸ List.mem_map_of_mem FileEntry.name he)

theorem writeEntry_notin (dir : List FileEntry) (n : String) (c : List Nat)
    (h : n ∉ dir.map FileEntry.name) : writeEntry dir n c = dir ++ [⟨n, c⟩] := by
  rw [writeEntry, hasEntry_eq_false dir n h]
  simp

theorem readFileD_cons_self (r : FileEntry) (l : List FileEntry) :
    readFileD (r :: l) r.name = some r.content := by
  simp [readFileD, List.find?_cons_of_pos]

theorem appendEntry_notin (l : List FileEntry) (F : String) (c dat : List Nat)
    (hF : F ∉ l.map FileEntry.name) :
    appendEntry (l ++ [⟨F, c⟩]) F dat = l ++ [⟨F, c ++ dat⟩] := by
  rw [appendEntry, List.map_append]
  congr 1
  · conv_rhs => rw [← List.map_id l]
    apply List.map_congr_left
    intro e he
    have : e.name ≠ F := fun heq => hF (heq ▸ List.mem_map_of_mem FileEntry.name he)
    simp [this]
  · simp

theorem removeEntry_of_notin (l : List FileEntry) (n : String)
    (h : n ∉ l.map FileEntry.name) : removeEntry l n = l := by
  apply List.filter_eq_self.mpr
  intro e he
  have : e.name ≠ n := fun heq => h (heq ▸ List.mem_map_of_mem FileEntry.name he)
  simp [this]

theorem combineLoop_skip (fileDir F : String) (rest : List String) (dir : List FileEntry) :
    combineLoop fileDir F (F :: rest) dir = combineLoop fileDir F rest dir := by
  rw [combineLoop, if_pos (by rw [beq_iff_eq])]

theorem combineLoop_step (fileDir F n : String) (rest : List String) (dir : List FileEntry)
    (hne : (pathJoin fileDir n == pathJoin fileDir F) = false)
    (dat : List Nat) (hread : readFileD dir n = some dat) :
    combineLoop fileDir F (n :: rest) dir
      = combineLoop fileDir F rest (removeEntry (appendEntry dir F dat) n) := by
  rw [combineLoop, hne]
  simp [hread]

theorem combineLoop_run (fileDir F : String) (rest : List FileEntry) (c : List Nat)
    (hnd : (rest.map FileEntry.name).Nodup) (hF : F ∉ rest.map FileEntry.name) :
    combineLoop fileDir F (rest.map FileEntry.name ++ [F]) (rest ++ [⟨F, c⟩])
      = some [⟨F, c ++ (rest.map FileEntry.content).flatten⟩] := by
  induction rest generalizing c with
  | nil =>
    simp only [List.map_nil, List.nil_append, List.flatten_nil, List.append_nil]
    rw [combineLoop_skip, combineLoop]
  | cons r rest' ih =>
    rw [List.map_cons] at hnd hF
    have hrF : F ≠ r.name := fun heq => hF (heq ▸ List.mem_cons_self _ _)
    have hFrest : F ∉ rest'.map FileEntry.name := fun hm => hF (List.mem_cons_of_mem _ hm)
    obtain ⟨hrrest, hnd'⟩ := List.nodup_cons.mp hnd
    have hguard : (pathJoin fileDir r.name == pathJoin fileDir F) = false :=
      beq_eq_false_iff_ne.mpr fun h => hrF ((pathJoin_inj _ _ _).mp h).symm
    have hread : readFileD ((r :: rest') ++ [⟨F, c⟩]) r.name = some r.content := by
      rw [List.cons_append, readFileD_cons_self]
    have hstep : removeEntry (appendEntry ((r :: rest') ++ [⟨F, c⟩]) F r.content) r.name
        = rest' ++ [⟨F, c ++ r.content⟩] := by
      rw [appendEntry_notin (r :: rest') F c r.content (by rw [List.map_cons]; exact hF)]
      rw [removeEntry, List.filter_append, List.filter_cons]
      have h1 : (!(r.name == r.name)) = false := by simp
      rw [h1]
      show removeEntry rest' r.name ++ removeEntry [⟨F, c ++ r.content⟩] r.name = _
      rw [removeEntry_of_notin rest' r.name hrrest]
      congr 1
      have h2 : F ≠ r.name := hrF
      simp [removeEntry, h2]
    rw [List.map_cons, List.cons_append, combineLoop_step fileDir F r.name
      (rest'.map FileEntry.name ++ [F]) _ hguard r.content hread, hstep,
      ih (c ++ r.content) hnd' hFrest]
    rw [List.map_cons, List.flatten_cons, List.append_assoc]

/-- Claim C2 (corrected): for an upload directory with pairwise distinct
entry names whose sizes sum to the declared total, provided the
descriptor's Filename does not collide with the name of an entry already
present, the combine succeeds and afterwards the directory contains
exactly the destination file, whose content is the concatenation of the
chunks in listing order (the destination is never read back as an input)
and whose byte length equals the declared total size. -/
theorem combineChunks_complete (fileDir : String) (ngfd : NgFlowData) (dir : List FileEntry)
    (hnd : (dir.map FileEntry.name).Nodup)
    (hF : ngfd.Filename ∉ dir.map FileEntry.name)
    (hsum : (((dir.map (fun e => e.content.length)).sum : Nat) : Int) = ngfd.TotalSize) :
    combineChunks fileDir ngfd dir
      = some (pathJoin fileDir ngfd.Filename,
              [⟨ngfd.Filename, (dir.map FileEntry.content).flatten⟩]) ∧
    (((dir.map FileEntry.content).flatten.length : Nat) : Int) = ngfd.TotalSize := by
  have hlen : (dir.map FileEntry.content).flatten.length
      = (dir.map (fun e => e.content.length)).sum := by
    rw [List.length_flatten, List.map_map]
    rfl
  constructor
  · simp only [combineChunks]
    rw [writeEntry_notin dir ngfd.Filename [] hF, List.map_append]
    have hone : ([(⟨ngfd.Filename, []⟩ : FileEntry)].map FileEntry.name)
        = [ngfd.Filename] := rfl
    rw [hone, combineLoop_run fileDir ngfd.Filename dir [] hnd hF]
    simp
  · rw [hlen]
    exact hsum

theorem combineChunks_complete_w :
    combineChunks "t/abc123" descC2w [⟨"1", [7]⟩, ⟨"2", [9]⟩]
      = some ("t/abc123/f.bin", [⟨"f.bin", [7, 9]⟩]) := by
  have h := (combineChunks_complete "t/abc123" descC2w [⟨"1", [7]⟩, ⟨"2", [9]⟩]
    (by decide) (by decide) (by decide)).1
  rw [h]
  decide

/-- Counterexample to claim C2 as stated: a directory holding chunk
files `1` and `2` of one byte each, total size 2, but with
`Filename = "1"`.  `os.Create` truncates chunk `1`, the loop then skips
it as the destination, and the combine succeeds yet produces a one-byte
file: the byte length differs from the declared total even though the
chunk sizes summed to it. -/
theorem combineChunks_collision_cex :
    ((([⟨"1", [7]⟩, ⟨"2", [9]⟩] : List FileEntry).map
        (fun e => e.content.length)).sum : Int) = descC2x.TotalSize ∧
    combineChunks "t/abc123" descC2x [⟨"1", [7]⟩, ⟨"2", [9]⟩]
      = some ("t/abc123/1", [⟨"1", [9]⟩]) ∧
    ¬ ((([(⟨"1", [9]⟩ : FileEntry)].map (fun e => e.content.length)).sum : Int)
        = descC2x.TotalSize) := by
  decide

theorem isAbs_pathJoin (t x : String) (h : isAbs t = true) : isAbs (pathJoin t x) = true := by
  rw [isAbs, data_pathJoin]
  rw [isAbs] at h
  cases hd : t.data with
  | nil => rw [hd] at h; simp at h
  | cons c cs => rw [hd] at h; simpa using h

/-- Claim C8 (corrected): when the storage root is an absolute path, the
path a successful combine returns (the non-empty string `ChunkUpload`
hands back) is absolute.  For a relative root the returned path is
relative — see the counterexample. -/
theorem combineChunks_returns_abs (tempDir : String) (ngfd : NgFlowData)
    (dir : List FileEntry) (res : String × List FileEntry)
    (habs : isAbs tempDir = true)
    (h : combineChunks (buildPathChunks tempDir ngfd).1 ngfd dir = some res) :
    isAbs res.1 = true := by
  have h1 : res.1 = pathJoin (buildPathChunks tempDir ngfd).1 ngfd.Filename := by
    simp only [combineChunks] at h
    cases hcl : combineLoop (buildPathChunks tempDir ngfd).1 ngfd.Filename
        ((writeEntry dir ngfd.Filename []).map FileEntry.name)
        (writeEntry dir ngfd.Filename []) with
    | none => rw [hcl] at h; simp at h
    | some d2 =>
      rw [hcl] at h
      simp only [Option.some_inj] at h
      rw [← h]
  rw [h1]
  have h2 : (buildPathChunks tempDir ngfd).1 = pathJoin tempDir ngfd.Identifier := rfl
  rw [h2]
  exact isAbs_pathJoin _ _ (isAbs_pathJoin _ _ habs)

theorem combineChunks_returns_abs_w :
    isAbs "/tmp" = true ∧ isAbs "/tmp/abc/f" = true :=
  ⟨by decide,
   combineChunks_returns_abs "/tmp" descC8 [⟨"1", [5]⟩] ("/tmp/abc/f", [⟨"f", [5]⟩])
     (by decide) (by decide)⟩

/-- Counterexample to claim C8 as stated: with the relative storage root
`"tmp"` the combine succeeds and returns `"tmp/abc/f"`, which is not an
absolute path. -/
theorem combineChunks_relative_cex :
    combineChunks (buildPathChunks "tmp" descC8).1 descC8 [⟨"1", [5]⟩]
      = some ("tmp/abc/f", [⟨"f", [5]⟩]) ∧
    isAbs "tmp/abc/f" = false := by
  decide

/-! ### Claims about the root validation and the status query -/

theorem checkDirectoryN_cached (d : String) (env : ProbeEnv) (n : Nat) (st : CheckState)
    (h : st.alreadyCheckedDirectory = true) :
    checkDirectoryN d env n st = (List.replicate n st.lastCheckedDirectoryError, st, []) := by
  induction n with
  | zero => rfl
  | succ m ih =>
    simp only [checkDirectoryN, checkDirectory, h, if_true, ih]
    simp [List.replicate_succ]

/-- Claim C4 (confirmed): starting from the initial cache state, `n ≥ 1`
successive `checkDirectory` calls all return the one probe outcome, the
concatenated filesystem trace of all `n` calls is exactly the trace of a
single probe run (so the probe operations run exactly once, on the first
call, and later calls never touch the filesystem), and the cache ends up
holding that outcome. -/
theorem checkDirectory_idempotent (d : String) (env : ProbeEnv) (n : Nat) (h : 1 ≤ n) :
    (checkDirectoryN d env n initCheckState).1
      = List.replicate n (checkDirectoryProbe d env).1 ∧
    (checkDirectoryN d env n initCheckState).2.2 = (checkDirectoryProbe d env).2 ∧
    (checkDirectoryN d env n initCheckState).2.1
      = ⟨true, (checkDirectoryProbe d env).1⟩ := by
  obtain ⟨m, rfl⟩ : ∃ m, n = m + 1 := ⟨n - 1, (Nat.succ_pred_eq_of_pos h).symm⟩
  have hfirst : checkDirectory d env initCheckState
      = ((checkDirectoryProbe d env).1, ⟨true, (checkDirectoryProbe d env).1⟩,
         (checkDirectoryProbe d env).2) := by
    simp [checkDirectory, initCheckState]
  simp only [checkDirectoryN, hfirst,
    checkDirectoryN_cached d env m ⟨true, (checkDirectoryProbe d env).1⟩ rfl]
  simp [List.replicate_succ]

theorem checkDirectory_idempotent_w :
    1 ≤ 3 ∧
    (checkDirectoryN "t" envIdeal 3 initCheckState).1
      = List.replicate 3 (checkDirectoryProbe "t" envIdeal).1 ∧
    (checkDirectoryN "t" envIdeal 3 initCheckState).2.2
      = (checkDirectoryProbe "t" envIdeal).2 :=
  ⟨by decide, (checkDirectory_idempotent "t" envIdeal 3 (by decide)).1,
   (checkDirectory_idempotent "t" envIdeal 3 (by decide)).2.1⟩

/-- Claim C5 (confirmed): with a valid root, the status query returns a
"not yet received" message with code 406 — outside
{200, 201, 202, 404, 415, 500, 501} — when the chunk file is absent; a
"wrong size" message with the internal-error code 500 when the file is
present, the chunk is not the final chunk, and its length differs from
the nominal chunk size; and a success message with code 200 otherwise. -/
theorem chunkStatus_trichotomy (ngfd : NgFlowData) (dat : List Nat) :
    (ChunkStatus none ngfd none
        = ("The chunk " ++ ngfd.Identifier ++ ":" ++ toString ngfd.ChunkNumber
            ++ " isn\x27t started yet!", 406) ∧
      (406 : Int) ∉ ([200, 201, 202, 404, 415, 500, 501] : List Int)) ∧
    (ngfd.ChunkNumber ≠ ngfd.TotalChunks → ngfd.ChunkSize ≠ (dat.length : Int) →
      ChunkStatus none ngfd (some dat)
        = ("The chunk " ++ ngfd.Identifier ++ ":" ++ toString ngfd.ChunkNumber
            ++ " is the wrong size!", 500)) ∧
    ((ngfd.ChunkNumber = ngfd.TotalChunks ∨ ngfd.ChunkSize = (dat.length : Int)) →
      ChunkStatus none ngfd (some dat)
        = ("The chunk " ++ ngfd.Identifier ++ ":" ++ toString ngfd.ChunkNumber
            ++ " looks great!", 200)) := by
  refine ⟨⟨rfl, by decide⟩, fun h1 h2 => ?_, fun h => ?_⟩
  · simp [ChunkStatus, h1, h2]
  · rcases h with h | h <;> simp [ChunkStatus, h]

theorem chunkStatus_trichotomy_w :
    ChunkStatus none descC5 none
      = ("The chunk " ++ descC5.Identifier ++ ":" ++ toString descC5.ChunkNumber
          ++ " isn\x27t started yet!", 406) ∧
    ChunkStatus none descC5 (some [7])
      = ("The chunk " ++ descC5.Identifier ++ ":" ++ toString descC5.ChunkNumber
          ++ " is the wrong size!", 500) ∧
    ChunkStatus none descC5 (some [7, 8])
      = ("The chunk " ++ descC5.Identifier ++ ":" ++ toString descC5.ChunkNumber
          ++ " looks great!", 200) :=
  ⟨(chunkStatus_trichotomy descC5 []).1.1,
   (chunkStatus_trichotomy descC5 [7]).2.1 (by decide) (by decide),
   (chunkStatus_trichotomy descC5 [7, 8]).2.2 (Or.inr (by decide))⟩

/-- Claim C6 (corrected): once the root validation cache is set, a
status query performs no filesystem write at all — its only operation is
reading the chunk file.  On the process's very first call, however, the
validation probe does create, write and delete entries under the root —
see the counterexample. -/
theorem chunkStatusT_no_writes_cached (tempDir : String) (ngfd : NgFlowData) (env : ProbeEnv)
    (st : CheckState) (chunkData : Option (List Nat))
    (h : st.alreadyCheckedDirectory = true) :
    ∀ op ∈ (ChunkStatusT tempDir ngfd env st chunkData).2.2, op.isWrite = false := by
  intro op hop
  simp only [ChunkStatusT, checkDirectory, h, if_true] at hop
  cases herr : st.lastCheckedDirectoryError with
  | some e => rw [herr] at hop; simp at hop
  | none =>
    rw [herr] at hop
    simp only [List.nil_append, List.mem_singleton] at hop
    rw [hop]
    rfl

theorem chunkStatusT_no_writes_cached_w :
    (⟨true, none⟩ : CheckState).alreadyCheckedDirectory = true ∧
    ∀ op ∈ (ChunkStatusT "t" descC6 envIdeal ⟨true, none⟩ (some [1])).2.2,
      op.isWrite = false :=
  ⟨rfl, chunkStatusT_no_writes_cached "t" descC6 envIdeal ⟨true, none⟩ (some [1]) rfl⟩

set_option maxRecDepth 4096 in
/-- Counterexample to claim C6 as stated: the first status query of the
process runs the validation probe, whose trace contains directory
creation, a file write, and a recursive delete — the call does not leave
the filesystem untouched. -/
theorem chunkStatusT_writes_cex :
    ((ChunkStatusT "t" descC6 envIdeal initCheckState none).2.2).any FsOp.isWrite = true := by
  decide

/-! ### Claims about the retention sweep and the permission settings -/

theorem sweepLoop_ok (now dur : Int) (l : List SweepEntry)
    (h : ∀ e ∈ l, entryOk now dur e) :
    sweepLoop now dur l = (none, l.filter (fun e => !(expiredE now dur e))) := by
  induction l with
  | nil => rfl
  | cons e rest ih =>
    obtain ⟨hsome, hrm⟩ := h e (List.mem_cons_self _ _)
    obtain ⟨mt, hmt⟩ := Option.isSome_iff_exists.mp hsome
    have hrest := ih fun x hx => h x (List.mem_cons_of_mem _ hx)
    by_cases hexp : now - mt > dur
    · have hexpE : expiredE now dur e = true := by
        rw [expiredE, hmt]
        simpa using hexp
      simp only [sweepLoop, hmt, if_pos hexp, hrm hexpE, List.filter_cons, hexpE,
        Bool.not_true, if_neg]
      simpa using hrest
    · have hexpE : expiredE now dur e = false := by
        rw [expiredE, hmt]
        simpa using hexp
      simp only [sweepLoop, hmt, if_neg hexp, hrest, List.filter_cons, hexpE, Bool.not_false]
      simp

theorem sweepLoop_propagate (now dur : Int) (pre tail : List SweepEntry) (err : SweepErr)
    (h : ∀ e ∈ pre, entryOk now dur e)
    (htail : sweepLoop now dur tail = (some err, tail)) :
    sweepLoop now dur (pre ++ tail)
      = (some err, pre.filter (fun e => !(expiredE now dur e)) ++ tail) := by
  induction pre with
  | nil => simpa using htail
  | cons e rest ih =>
    obtain ⟨hsome, hrm⟩ := h e (List.mem_cons_self _ _)
    obtain ⟨mt, hmt⟩ := Option.isSome_iff_exists.mp hsome
    have hrest := ih fun x hx => h x (List.mem_cons_of_mem _ hx)
    rw [List.cons_append]
    by_cases hexp : now - mt > dur
    · have hexpE : expiredE now dur e = true := by
        rw [expiredE, hmt]
        simpa using hexp
      simp only [sweepLoop, hmt, if_pos hexp, hrm hexpE, List.filter_cons, hexpE,
        Bool.not_true, if_neg]
      simpa using hrest
    · have hexpE : expiredE now dur e = false := by
        rw [expiredE, hmt]
        simpa using hexp
      simp only [sweepLoop, hmt, if_neg hexp, hrest, List.filter_cons, hexpE, Bool.not_false]
      simp

/-- Claim C7 (confirmed): an error-free sweep deletes exactly the root's
children strictly older than the retention window and keeps every newer
child; re-running the sweep on the result (same clock, no intervening
writes) deletes nothing; a stat failure or a delete failure aborts the
sweep at that entry, surfacing the error with every later entry
unprocessed; and a listing failure surfaces the error with the root
untouched. -/
theorem chunksCleanup_spec (dir pre post : List SweepEntry) (bad : SweepEntry)
    (now dur : Int) :
    ((∀ e ∈ dir, entryOk now dur e) →
      ChunksCleanup false dir now dur
        = (none, dir.filter (fun e => !(expiredE now dur e))) ∧
      ChunksCleanup false (dir.filter (fun e => !(expiredE now dur e))) now dur
        = (none, dir.filter (fun e => !(expiredE now dur e)))) ∧
    ((∀ e ∈ pre, entryOk now dur e) → bad.modTime = none →
      ChunksCleanup false (pre ++ bad :: post) now dur
        = (some SweepErr.statErr,
           pre.filter (fun e => !(expiredE now dur e)) ++ bad :: post)) ∧
    ((∀ e ∈ pre, entryOk now dur e) → expiredE now dur bad = true →
        bad.removeFails = true →
      ChunksCleanup false (pre ++ bad :: post) now dur
        = (some SweepErr.removeErr,
           pre.filter (fun e => !(expiredE now dur e)) ++ bad :: post)) ∧
    ChunksCleanup true dir now dur = (some SweepErr.listErr, dir) := by
  refine ⟨fun h => ⟨?_, ?_⟩, fun h hbad => ?_, fun h hexp hrm => ?_, rfl⟩
  · simpa [ChunksCleanup] using sweepLoop_ok now dur dir h
  · have hmem : ∀ e ∈ dir.filter (fun e => !(expiredE now dur e)), entryOk now dur e :=
      fun e he => h e (List.mem_of_mem_filter he)
    have hfix : (dir.filter (fun e => !(expiredE now dur e))).filter
        (fun e => !(expiredE now dur e)) = dir.filter (fun e => !(expiredE now dur e)) :=
      List.filter_eq_self.mpr fun e he => (List.mem_filter.mp he).2
    simpa [ChunksCleanup, hfix] using
      sweepLoop_ok now dur (dir.filter (fun e => !(expiredE now dur e))) hmem
  · have htail : sweepLoop now dur (bad :: post) = (some SweepErr.statErr, bad :: post) := by
      simp [sweepLoop, hbad]
    simpa [ChunksCleanup] using
      sweepLoop_propagate now dur pre (bad :: post) SweepErr.statErr h htail
  · obtain ⟨mt, hmt⟩ : ∃ mt, bad.modTime = some mt := by
      rw [expiredE] at hexp
      cases hbmt : bad.modTime with
      | none => rw [hbmt] at hexp; simp at hexp
      | some mt => exact ⟨mt, rfl⟩
    have hgt : now - mt > dur := by
      rw [expiredE, hmt] at hexp
      simpa using hexp
    have htail : sweepLoop now dur (bad :: post) = (some SweepErr.removeErr, bad :: post) := by
      simp [sweepLoop, hmt, hgt, hrm]
    simpa [ChunksCleanup] using
      sweepLoop_propagate now dur pre (bad :: post) SweepErr.removeErr h htail

theorem chunksCleanup_spec_w :
    (∀ e ∈ [sweepOld, sweepNew], entryOk 50 10 e) ∧
    ChunksCleanup false [sweepOld, sweepNew] 50 10 = (none, [sweepNew]) ∧
    ChunksCleanup false [sweepNew] 50 10 = (none, [sweepNew]) ∧
    ChunksCleanup false ([sweepOld] ++ sweepBad :: []) 50 10
      = (some SweepErr.statErr, [sweepBad]) ∧
    ChunksCleanup false ([] ++ sweepBad2 :: []) 50 10
      = (some SweepErr.removeErr, [sweepBad2]) := by
  refine ⟨by decide, ?_, ?_, ?_, ?_⟩
  · have h := ((chunksCleanup_spec [sweepOld, sweepNew] [] [] sweepBad 50 10).1
      (by decide)).1
    rw [h]; decide
  · have h := ((chunksCleanup_spec [sweepOld, sweepNew] [] [] sweepBad 50 10).1
      (by decide)).2
    have he : ([sweepOld, sweepNew].filter (fun e => !(expiredE 50 10 e))) = [sweepNew] := by
      decide
    rw [he] at h
    rw [h]
  · have h := (chunksCleanup_spec [] [sweepOld] [] sweepBad 50 10).2.1 (by decide) rfl
    rw [h]; decide
  · have h := (chunksCleanup_spec [] [] [] sweepBad2 50 10).2.2.1 (by decide)
      (by decide) rfl
    rw [h]; decide

/-- Claim C9 (code bug): the probe and `storeChunk` directories are
created with `DefaultDirPermissions` and the probe file is written with
`DefaultFilePermissions`, but the chunk file itself is written by
`storeChunk` with `DefaultDirPermissions` (0777), not the
file-permission setting (0600) the claim names — and the two settings
differ. -/
theorem storeChunk_wrong_file_mode :
    storeChunkOps "t/abc123" "t/abc123/1"
      = [FsOp.mkdirAllOp "t/abc123" DefaultDirPermissions,
         FsOp.writeFileOp "t/abc123/1" DefaultDirPermissions] ∧
    DefaultDirPermissions ≠ DefaultFilePermissions := by
  refine ⟨rfl, by decide⟩

end Gongflow
